import Mathlib

/-!
Verification of the request-signing, credential-cache, resolver, content-fetcher
and search layers of the `bilibili-video-info-mcp` service
(`src/bilibili_video_info_mcp/bilibili_api.py` and `server.py`).

The Python code is shallowly embedded:

* Python `dict`s become insertion-ordered association lists
  (`List (String × _)`) whose keys are unique; assignment is `dictInsert`,
  which replaces in place when the key exists and appends otherwise,
  exactly as a Python `dict` does.
* Network requests become explicit oracle arguments (`Option _` values:
  `none` is a raised `requests.RequestException`, `some` is the decoded
  response body).  A call's number of issued fetches is returned
  alongside its result where a claim counts network traffic.
* `hashlib.md5(...).hexdigest()` is an external collaborator; the signing
  function is parameterised over the digest function `md5hex`, and the
  theorems state which exact string is digested.
* `time.time()` becomes an explicit `now` argument.
* Fallible Python code (indexing that can raise `IndexError`) returns
  `Option`.
-/

/-- A Python dict value as used by this code base: a string or an integer. -/
inductive PValue
  | pstr (s : String)
  | pint (n : Int)
  deriving DecidableEq, Repr

/-- Python `str(v)` on a dict value. -/
def pvalueStr : PValue → String
  | PValue.pstr s => s
  | PValue.pint n => toString n

/-- An insertion-ordered Python dict with string keys. -/
abbrev PDict := List (String × PValue)

/-- Lookup of the first binding of a key (Python `d[k]` / `d.get(k)`). -/
def plookup {α : Type} (k : String) : List (String × α) → Option α
  | [] => none
  | p :: rest => if p.1 = k then some p.2 else plookup k rest

/-- Whether a key occurs in the dict (Python `k in d`). -/
def containsKey {α : Type} (k : String) (l : List (String × α)) : Bool :=
  l.any (fun p => p.1 = k)

/-- Python dict assignment `d[k] = v`: replace in place if the key exists,
append otherwise. -/
def dictInsert {α : Type} (l : List (String × α)) (k : String) (v : α) :
    List (String × α) :=
  if containsKey k l then l.map (fun p => if p.1 = k then (k, v) else p)
  else l ++ [(k, v)]

/-- The characters stripped from values before signing: `!`, `'`, `(`, `)`, `*`
(the Python filter `c not in "!'()*"`). -/
def specialChars : List Char := ['!', Char.ofNat 39, '(', ')', '*']

/-- `''.join(filter(lambda c: c not in "!'()*", s))`. -/
def stripSpecial (s : String) : String :=
  String.mk (s.data.filter (fun c => !(specialChars.contains c)))

/-- Upper-case hex digit, as produced by `urllib.parse.quote`. -/
def hexDigit (n : Nat) : Char :=
  if n < 10 then Char.ofNat (48 + n) else Char.ofNat (55 + n)

/-- UTF-8 byte sequence of a code point (Python `str.encode()` per character). -/
def utf8BytesOfCode (n : Nat) : List Nat :=
  if n < 128 then [n]
  else if n < 2048 then [192 + n / 64, 128 + n % 64]
  else if n < 65536 then [224 + n / 4096, 128 + (n / 64) % 64, 128 + n % 64]
  else [240 + n / 262144, 128 + (n / 4096) % 64, 128 + (n / 64) % 64, 128 + n % 64]

/-- `urllib.parse.quote_plus` on one character: safe characters
(letters, digits, `_.-~`) pass through, a space becomes `+`, everything else
is percent-encoded byte-wise in upper-case hex. -/
def quotePlusChar (c : Char) : String :=
  if c = ' ' then "+"
  else if c.isAlphanum || c = '_' || c = '.' || c = '-' || c = '~' then
    String.singleton c
  else
    String.join ((utf8BytesOfCode c.toNat).map
      (fun b => String.mk ['%', hexDigit (b / 16), hexDigit (b % 16)]))

/-- `urllib.parse.quote_plus` on a string. -/
def quotePlus (s : String) : String :=
  String.join (s.data.map quotePlusChar)

/-- `urllib.parse.urlencode` on an ordered mapping with string values. -/
def urlencode (l : List (String × String)) : String :=
  String.intercalate "&" (l.map (fun p => quotePlus p.1 ++ "=" ++ quotePlus p.2))

/-- The fixed WBI mixin-key permutation table (`MIXIN_KEY_ENC_TAB`). -/
def MIXIN_KEY_ENC_TAB : List Nat :=
  [46, 47, 18, 2, 53, 8, 23, 32, 15, 50, 10, 31, 58, 3, 45, 35, 27, 43, 5, 49,
   33, 9, 42, 19, 29, 28, 14, 39, 12, 38, 41, 13, 37, 48, 7, 16, 24, 55, 40,
   61, 26, 17, 0, 1, 60, 51, 30, 4, 22, 25, 54, 21, 56, 59, 6, 63, 57, 62, 11,
   36, 20, 34, 44, 52]

/-- Python `orig[i]`: `some` character, or `none` when the index is out of
range (an `IndexError`). -/
def charAtF (s : String) (i : Nat) : Option Char := s.data.get? i

/-- One step of the `reduce` in `_get_mixin_key`: `s + orig[i]`, propagating a
raised `IndexError` as `none`. -/
def mixStep (orig : String) (acc : Option (List Char)) (i : Nat) :
    Option (List Char) :=
  match acc, charAtF orig i with
  | some s, some c => some (s ++ [c])
  | _, _ => none

/-- `_get_mixin_key(orig)`:
`reduce(lambda s, i: s + orig[i], MIXIN_KEY_ENC_TAB, '')[:32]`.
Returns `none` when some table index is out of range of `orig`
(the Python code raises `IndexError` there). -/
def get_mixin_keyF (orig : String) : Option String :=
  (MIXIN_KEY_ENC_TAB.foldl (mixStep orig) (some ([] : List Char))).map
    (fun l => String.mk (l.take 32))

/-- The mixin key as a total function (meaningful when `orig` has at least 64
characters, where it agrees with `get_mixin_keyF`). -/
def mixinOf (orig : String) : String :=
  String.mk ((MIXIN_KEY_ENC_TAB.map (fun i => orig.data.getD i 'A')).take 32)

/-- The sorted and character-stripped parameter list built inside `_enc_wbi`:
`wts` is inserted, the items are sorted lexicographically by key, and every
value is stringified with the characters `!'()*` removed. -/
def cleanedParams (now : Nat) (params : PDict) : List (String × String) :=
  ((dictInsert params "wts" (PValue.pint (Int.ofNat now))).mergeSort
      (fun p q => p.1 ≤ q.1)).map
    (fun p => (p.1, stripSpecial (pvalueStr p.2)))

/-- `_enc_wbi(params, img_key, sub_key)`.

Returns `none` when `_get_mixin_key` raises (table index out of range of
`img_key + sub_key`).  Otherwise returns the signed mapping together with the
state of the *caller's* dict after the call: the Python code executes
`params['wts'] = curr_time` on the caller's dict object before rebinding the
local name to fresh dicts, so the caller's mapping gains a `wts` entry. -/
def enc_wbiF (md5hex : String → String) (now : Nat) (params : PDict)
    (img_key sub_key : String) :
    Option (List (String × String) × PDict) :=
  (get_mixin_keyF (img_key ++ sub_key)).map (fun mixin_key =>
    let callerParams := dictInsert params "wts" (PValue.pint (Int.ofNat now))
    let cleaned := cleanedParams now params
    let query := urlencode cleaned
    (dictInsert cleaned "w_rid" (md5hex (query ++ mixin_key)), callerParams))

/-! ## Credential caches -/

/-- `WBI_KEYS_CACHE_TTL = 3600` seconds. -/
def WBI_KEYS_CACHE_TTL : Int := 3600

/-- `BUVID3_CACHE_TTL = 86400` seconds. -/
def BUVID3_CACHE_TTL : Int := 86400

/-- The module-level `_wbi_keys_cache` mutable state.  The Python `None`
initial values are falsy exactly like `''`, so absent keys are modelled as
empty strings. -/
structure WbiCache where
  img_key : String
  sub_key : String
  last_update : Int
  deriving DecidableEq, Repr

/-- The module-level `_buvid3_cache` mutable state. -/
structure BuvidCache where
  buvid3 : String
  b_nut : String
  last_update : Int
  deriving DecidableEq, Repr

/-- Python `url.rsplit('/', 1)[-1]`: the part after the last `/`
(the whole string when there is no `/`). -/
def afterLastSlash (s : String) : String :=
  String.mk ((s.data.reverse.takeWhile (fun c => c ≠ '/')).reverse)

/-- Python `s.split('.')[0]`: the part before the first `.`
(the whole string when there is no `.`). -/
def beforeFirstDot (s : String) : String :=
  String.mk (s.data.takeWhile (fun c => c ≠ '.'))

/-- Key extraction from a `wbi_img` URL:
`url.rsplit('/', 1)[-1].split('.')[0] if url else ''`. -/
def wbiKeyOfUrl (url : String) : String :=
  if url ≠ "" then beforeFirstDot (afterLastSlash url) else ""

/-- `_get_wbi_keys()` as a state-transition function.

`fetch` is the network oracle for the nav endpoint: `none` is a
`requests.RequestException` (including a bad HTTP status), and
`some (img_url, sub_url)` carries the `data.wbi_img` URLs of the decoded JSON
(absent fields decode as `''`).  The result triple is
(returned key pair, cache state after the call, number of fetches issued). -/
def get_wbi_keys (st : WbiCache) (now : Int) (fetch : Option (String × String)) :
    (String × String) × WbiCache × Nat :=
  if st.img_key ≠ "" ∧ st.sub_key ≠ "" ∧ now - st.last_update < WBI_KEYS_CACHE_TTL then
    ((st.img_key, st.sub_key), st, 0)
  else
    let fallback : (String × String) × WbiCache × Nat :=
      if st.img_key ≠ "" ∧ st.sub_key ≠ "" then ((st.img_key, st.sub_key), st, 1)
      else (("", ""), st, 1)
    match fetch with
    | none => fallback
    | some urls =>
      let img_key := wbiKeyOfUrl urls.1
      let sub_key := wbiKeyOfUrl urls.2
      if img_key ≠ "" ∧ sub_key ≠ "" then
        ((img_key, sub_key), ⟨img_key, sub_key, now⟩, 1)
      else fallback

/-- `_get_buvid3()` as a state-transition function.

`fetch` is the oracle for the landing-page request: `none` is a
`requests.RequestException`, `some (buvid3, b_nut)` carries the response
cookies (absent cookies decode as `''`). -/
def get_buvid3 (st : BuvidCache) (now : Int) (fetch : Option (String × String)) :
    (String × String) × BuvidCache × Nat :=
  if st.buvid3 ≠ "" ∧ now - st.last_update < BUVID3_CACHE_TTL then
    ((st.buvid3, st.b_nut), st, 0)
  else
    let fallback : (String × String) × BuvidCache × Nat :=
      if st.buvid3 ≠ "" then ((st.buvid3, st.b_nut), st, 1)
      else (("", ""), st, 1)
    match fetch with
    | none => fallback
    | some cookies =>
      if cookies.1 ≠ "" then ((cookies.1, cookies.2), ⟨cookies.1, cookies.2, now⟩, 1)
      else fallback

/-- `_sign_params_wbi(params)` given the key pair the cache returned:
when either key is empty the parameters are returned unsigned, otherwise
`_enc_wbi` runs.  The signed dict's string values are re-embedded as
`PValue.pstr`. -/
def sign_params_wbiF (md5hex : String → String) (now : Nat) (params : PDict)
    (img_key sub_key : String) : Option PDict :=
  if img_key = "" ∨ sub_key = "" then some params
  else
    (enc_wbiF md5hex now params img_key sub_key).map
      (fun r => r.1.map (fun p => (p.1, PValue.pstr p.2)))

/-! ## Resolver -/

/-- A character matched by the regex class `[a-zA-Z0-9_]`. -/
def isWordChar (c : Char) : Bool := c.isAlpha || c.isDigit || c = '_'

/-- `re.search(r'BV[a-zA-Z0-9_]+', url)`: the leftmost match of `BV` followed
by a maximal non-empty run of word characters, or `none`. -/
def bvMatch : List Char → Option (List Char)
  | [] => none
  | c1 :: rest1 =>
    match rest1 with
    | c2 :: c3 :: rest =>
      if c1 = 'B' ∧ c2 = 'V' ∧ isWordChar c3 then
        some (c1 :: c2 :: c3 :: rest.takeWhile isWordChar)
      else bvMatch rest1
    | _ => none

/-- Whether `pat` occurs as a contiguous subsequence of `l`
(Python `pat in url` on strings). -/
def containsSeq (pat : List Char) : List Char → Bool
  | [] => pat.isEmpty
  | c :: rest => pat.isPrefixOf (c :: rest) || containsSeq pat rest

/-- `extract_bvid(url)`.

`head` is the oracle for the redirect-following `requests.head` call: `none`
is a `requests.RequestException` or a final status other than 200 (both make
the function fall through and return `None`); `some finalUrl` is a 200
response with its final resolved URL.  The second component counts the HEAD
requests issued. -/
def extract_bvid (url : List Char) (head : Option (List Char)) :
    Option (List Char) × Nat :=
  match bvMatch url with
  | some m => (some m, 0)
  | none =>
    if containsSeq "b23.tv".data url then
      match head with
      | some finalUrl => (bvMatch finalUrl, 1)
      | none => (none, 1)
    else (none, 0)

/-! ## Search parameter building -/

/-- The keys of the `SEARCH_TYPES` validation table. -/
def SEARCH_TYPES_KEYS : List String :=
  ["video", "media_bangumi", "media_ft", "live", "live_room", "live_user",
   "article", "topic", "bili_user", "photo"]

/-- The keyword arguments of `search_by_type` that shape the outbound
parameter set.  `Option` models Python `None` defaults; `order` is falsy when
`none` or `some ""`. -/
structure SearchArgs where
  keyword : String
  search_type : String
  order : Option String
  page : Int
  duration : Option Int
  tids : Option Int
  user_type : Option Int
  order_sort : Option Int
  category_id : Option Int
  pubtime_begin_s : Int
  pubtime_end_s : Int

/-- One conditionally included field:
Python `if v is not None and cond: params[name] = v`. -/
def optField (name : String) (cond : Prop) [Decidable cond] (v : Option PValue) :
    PDict :=
  match v with
  | some x => if cond then [(name, x)] else []
  | none => []

/-- The parameter dict built by `search_by_type` before WBI signing.  All the
assigned keys are distinct and fresh, so each dict assignment appends. -/
def search_by_type_params (a : SearchArgs) : PDict :=
  [("keyword", PValue.pstr a.keyword),
   ("search_type", PValue.pstr a.search_type),
   ("page", PValue.pint a.page)]
  ++ (if a.order.getD "" ≠ "" then [("order", PValue.pstr (a.order.getD ""))] else [])
  ++ optField "duration" (a.search_type = "video") (a.duration.map PValue.pint)
  ++ optField "tids" (a.search_type = "video") (a.tids.map PValue.pint)
  ++ optField "user_type" (a.search_type = "bili_user") (a.user_type.map PValue.pint)
  ++ optField "order_sort" (a.search_type = "bili_user") (a.order_sort.map PValue.pint)
  ++ optField "category_id" (a.search_type = "article" ∨ a.search_type = "photo")
       (a.category_id.map PValue.pint)
  ++ (if a.pubtime_begin_s ≠ 0 then [("pubtime_begin_s", PValue.pint a.pubtime_begin_s)] else [])
  ++ (if a.pubtime_end_s ≠ 0 then [("pubtime_end_s", PValue.pint a.pubtime_end_s)] else [])

/-- The arguments of the `search` tool in `server.py`. -/
structure ServerSearchArgs where
  keyword : String
  search_type : String
  order : String
  page : Int
  duration : Option Int
  tids : Option Int
  user_type : Option Int
  order_sort : Option Int
  category_id : Option Int
  pubtime_begin_s : Int
  pubtime_end_s : Int
  recent_days : Int
  recent_weeks : Int

/-- The publish-time window computed at the top of the `search` tool:
`recent_weeks` wins over `recent_days`, which wins over the caller-supplied
`pubtime_begin_s`/`pubtime_end_s`.  Returns `(pubtime_begin_s, pubtime_end_s)`. -/
def serverPubtimes (now : Nat) (recent_weeks recent_days : Int)
    (pubtime_begin_s pubtime_end_s : Int) : Int × Int :=
  if recent_weeks > 0 then
    ((now : Int) - recent_weeks * 7 * 24 * 3600, (now : Int))
  else if recent_days > 0 then
    ((now : Int) - recent_days * 24 * 3600, (now : Int))
  else (pubtime_begin_s, pubtime_end_s)

/-- The `SearchArgs` the `search` tool passes down to `search_by_type`. -/
def serverToSearchArgs (now : Nat) (sa : ServerSearchArgs) : SearchArgs :=
  let pt := serverPubtimes now sa.recent_weeks sa.recent_days
      sa.pubtime_begin_s sa.pubtime_end_s
  { keyword := sa.keyword
    search_type := sa.search_type
    order := some sa.order
    page := sa.page
    duration := sa.duration
    tids := sa.tids
    user_type := sa.user_type
    order_sort := sa.order_sort
    category_id := sa.category_id
    pubtime_begin_s := pt.1
    pubtime_end_s := pt.2 }

/-- The parameter dict the `search` tool causes to be sent upstream
(before WBI signing, which only adds `wts` and `w_rid`). -/
def server_search_params (now : Nat) (sa : ServerSearchArgs) : PDict :=
  search_by_type_params (serverToSearchArgs now sa)

/-! ## Content fetchers -/

/-- One entry of `data.subtitle.subtitles` in the subtitle-listing response:
`lan` and `subtitle_url` (`''` when the field is absent or falsy). -/
structure SubMeta where
  lan : String
  subtitle_url : String
  deriving DecidableEq, Repr

/-- The decoded subtitle-listing response body. -/
structure SubListResp where
  code : Int
  subtitles : List SubMeta
  deriving DecidableEq, Repr

/-- `get_subtitles(aid, cid)`.

`resp` is the oracle for the listing request (`none` = raised
`requests.RequestException`); `bodyFetch` is the oracle for the per-track
body requests, keyed by the full `https:`-prefixed URL, yielding the track's
list of `content` strings on success and `none` on failure.  Result:
(subtitles list, error). -/
def get_subtitles_run (resp : Option SubListResp)
    (bodyFetch : String → Option (List String)) :
    List (String × List String) × Option String :=
  match resp with
  | none => ([], some "Could not fetch subtitles")
  | some r =>
    if r.code = 0 ∧ r.subtitles ≠ [] then
      (r.subtitles.filterMap (fun m =>
        if m.subtitle_url ≠ "" then
          (bodyFetch ("https:" ++ m.subtitle_url)).map (fun body => (m.lan, body))
        else none), none)
    else ([], none)

/-- `get_danmaku(cid)`: `resp` is the oracle carrying the text of every `<d>`
element of the parsed XML, `none` being a request or parse failure. -/
def get_danmaku_run (resp : Option (List String)) :
    List String × Option String :=
  match resp with
  | none => ([], some "Failed to get or parse danmaku")
  | some xs => (xs, none)

/-- One reply of the comment-listing response: the member's `uname` (`none`
when absent, defaulted to `'Unknown User'`), the `content.message` (`''` when
absent or falsy) and the `like` count. -/
structure RawComment where
  uname : Option String
  message : String
  like : Int
  deriving DecidableEq, Repr

/-- The decoded comment-listing response body. -/
structure CommentsResp where
  code : Int
  replies : List RawComment
  deriving DecidableEq, Repr

/-- A projected comment record `{user, content, likes}`. -/
structure CommentItem where
  user : String
  content : String
  likes : Int
  deriving DecidableEq, Repr

/-- `get_comments(aid)`. -/
def get_comments_run (resp : Option CommentsResp) :
    List CommentItem × Option String :=
  match resp with
  | none => ([], some "Failed to get comments")
  | some r =>
    if r.code = 0 ∧ r.replies ≠ [] then
      (r.replies.filterMap (fun c =>
        if c.message ≠ "" then
          some ⟨c.uname.getD "Unknown User", c.message, c.like⟩
        else none), none)
    else ([], none)

/-- The view-info response body: the application code and the optional
`aid`/`cid` fields. -/
structure ViewResp where
  code : Int
  aid : Option Int
  cid : Option Int
  deriving DecidableEq, Repr

/-- `get_video_basic_info(bvid)`: returns `(aid, cid, error)`. -/
def get_video_basic_info (resp : Option ViewResp) :
    Option Int × Option Int × Option String :=
  match resp with
  | none => (none, none, some "Failed to fetch video details")
  | some r =>
    if r.code ≠ 0 then (none, none, some "Failed to get video info")
    else (r.aid, r.cid, none)

/-! ## Search dispatch and the tool boundary (`server.py`)

The per-`search_type` field projection applied to each result item is the
"pure, stateless projection" the design document excludes from scope; it is
passed in as the parameter `fmt`.  The type `ι` of raw result items is kept
abstract for the same reason. -/

/-- The `data.result` part of a search response: a plain item list, or (for
`search_type = 'live'`) an object with `live_room` and `live_user` lists. -/
inductive ResultsPayload (ι : Type)
  | plain (items : List ι)
  | split (live_room live_user : List ι)
  deriving DecidableEq, Repr

/-- The decoded search response body (defaults of the Python `.get` calls
already applied). -/
structure SearchResp (ι : Type) where
  code : Int
  message : String
  results : ResultsPayload ι
  page : Int
  pagesize : Int
  numResults : Int
  numPages : Int
  deriving DecidableEq, Repr

/-- The value `search_by_type` produces: an error descriptor's message, or
the result object. -/
inductive SearchOutcome (ι : Type)
  | err (msg : String)
  | ok (results : ResultsPayload ι) (page pagesize numResults numPages : Int)
  deriving DecidableEq, Repr

/-- The dispatch-and-normalise part of `search_by_type`: the `search_type`
validity gate, then the network call and application-code check, then the
item normalisation (`fmt`, applied per item; the `live` split payload is
passed through as the two sub-lists). -/
def search_by_type_run {ι : Type} (fmt : String → ι → ι) (a : SearchArgs)
    (resp : Option (SearchResp ι)) : SearchOutcome ι :=
  if a.search_type ∈ SEARCH_TYPES_KEYS then
    match resp with
    | none => SearchOutcome.err "Failed to perform search"
    | some r =>
      if r.code ≠ 0 then SearchOutcome.err ("API error: " ++ r.message)
      else
        match r.results with
        | ResultsPayload.split rooms users =>
          SearchOutcome.ok (ResultsPayload.split rooms users)
            r.page r.pagesize r.numResults r.numPages
        | ResultsPayload.plain items =>
          SearchOutcome.ok (ResultsPayload.plain (items.map (fmt a.search_type)))
            r.page r.pagesize r.numResults r.numPages
  else SearchOutcome.err ("Invalid search_type: " ++ a.search_type)

/-- An element of a list a tool returns: a plain string (an error message or
a danmaku text), a subtitle record `{lan, content}`, or a comment record
`{user, content, likes}`. -/
inductive ToolItem
  | text (s : String)
  | subRec (lan : String) (content : List String)
  | comRec (user content : String) (likes : Int)
  deriving DecidableEq, Repr

/-- A value of a dict a tool returns. -/
inductive DVal (ι : Type)
  | vstr (s : String)
  | vint (n : Int)
  | vitems (xs : List ι)
  | vsplit (live_room live_user : List ι)
  deriving DecidableEq, Repr

/-- What a tool hands back to the MCP host: a Python list or a Python dict. -/
inductive ToolReturn (ι : Type)
  | rlist (items : List ToolItem)
  | rdict (entries : List (String × DVal ι))
  deriving DecidableEq, Repr

/-- Discriminator: is the returned value a list? -/
def ToolReturn.isAList {ι : Type} : ToolReturn ι → Bool
  | ToolReturn.rlist _ => true
  | ToolReturn.rdict _ => false

/-- The `get_subtitles` tool of `server.py`. -/
def get_subtitles_tool (ι : Type) (url : List Char) (head : Option (List Char))
    (view : Option ViewResp) (subResp : Option SubListResp)
    (bodyFetch : String → Option (List String)) : ToolReturn ι :=
  match (extract_bvid url head).1 with
  | none =>
    ToolReturn.rlist [ToolItem.text ("错误: 无法从 URL 提取 BV 号: " ++ String.mk url)]
  | some _ =>
    match get_video_basic_info view with
    | (_, _, some e) => ToolReturn.rlist [ToolItem.text ("获取视频信息失败: " ++ e)]
    | (_, _, none) =>
      match get_subtitles_run subResp bodyFetch with
      | (_, some e) => ToolReturn.rlist [ToolItem.text ("获取字幕失败: " ++ e)]
      | (subs, none) =>
        if subs.isEmpty then ToolReturn.rlist [ToolItem.text "该视频没有字幕"]
        else ToolReturn.rlist (subs.map (fun p => ToolItem.subRec p.1 p.2))

/-- The `get_danmaku` tool of `server.py`. -/
def get_danmaku_tool (ι : Type) (url : List Char) (head : Option (List Char))
    (view : Option ViewResp) (dmResp : Option (List String)) : ToolReturn ι :=
  match (extract_bvid url head).1 with
  | none =>
    ToolReturn.rlist [ToolItem.text ("错误: 无法从 URL 提取 BV 号: " ++ String.mk url)]
  | some _ =>
    match get_video_basic_info view with
    | (_, _, some e) => ToolReturn.rlist [ToolItem.text ("获取视频信息失败: " ++ e)]
    | (_, _, none) =>
      match get_danmaku_run dmResp with
      | (_, some e) => ToolReturn.rlist [ToolItem.text ("获取弹幕失败: " ++ e)]
      | (dms, none) =>
        if dms.isEmpty then ToolReturn.rlist [ToolItem.text "该视频没有弹幕"]
        else ToolReturn.rlist (dms.map ToolItem.text)

/-- The `get_comments` tool of `server.py`. -/
def get_comments_tool (ι : Type) (url : List Char) (head : Option (List Char))
    (view : Option ViewResp) (cmResp : Option CommentsResp) : ToolReturn ι :=
  match (extract_bvid url head).1 with
  | none =>
    ToolReturn.rlist [ToolItem.text ("错误: 无法从 URL 提取 BV 号: " ++ String.mk url)]
  | some _ =>
    match get_video_basic_info view with
    | (_, _, some e) => ToolReturn.rlist [ToolItem.text ("获取视频信息失败: " ++ e)]
    | (_, _, none) =>
      match get_comments_run cmResp with
      | (_, some e) => ToolReturn.rlist [ToolItem.text ("获取评论失败: " ++ e)]
      | (cms, none) =>
        if cms.isEmpty then ToolReturn.rlist [ToolItem.text "该视频没有热门评论"]
        else ToolReturn.rlist (cms.map (fun c => ToolItem.comRec c.user c.content c.likes))

/-- The `search` tool of `server.py`: computes the publish-time window, calls
`search_by_type`, and returns `{"error": msg}` on error and the result object
on success — a Python dict either way. -/
def search_tool {ι : Type} (fmt : String → ι → ι) (now : Nat)
    (sa : ServerSearchArgs) (resp : Option (SearchResp ι)) : ToolReturn ι :=
  match search_by_type_run fmt (serverToSearchArgs now sa) resp with
  | SearchOutcome.err e => ToolReturn.rdict [("error", DVal.vstr e)]
  | SearchOutcome.ok (ResultsPayload.plain xs) pg ps nr np =>
    ToolReturn.rdict [("results", DVal.vitems xs), ("page", DVal.vint pg),
      ("pagesize", DVal.vint ps), ("numResults", DVal.vint nr),
      ("numPages", DVal.vint np)]
  | SearchOutcome.ok (ResultsPayload.split rooms users) pg ps nr np =>
    ToolReturn.rdict [("results", DVal.vsplit rooms users), ("page", DVal.vint pg),
      ("pagesize", DVal.vint ps), ("numResults", DVal.vint nr),
      ("numPages", DVal.vint np)]

/-! ## Helper lemmas: dicts -/

theorem plookup_append {α : Type} (k : String) (l₁ l₂ : List (String × α)) :
    plookup k (l₁ ++ l₂) =
      (match plookup k l₁ with
       | some v => some v
       | none => plookup k l₂) := by
  induction l₁ with
  | nil => simp [plookup]
  | cons p rest ih =>
    by_cases hp : p.1 = k
    · simp [plookup, hp]
    · simp [plookup, hp, ih]

theorem plookup_replace_self {α : Type} (k : String) (v : α) :
    ∀ l : List (String × α), containsKey k l = true →
      plookup k (l.map (fun p => if p.1 = k then (k, v) else p)) = some v := by
  intro l
  induction l with
  | nil => intro h; simp [containsKey] at h
  | cons p rest ih =>
    intro h
    by_cases hp : p.1 = k
    · simp [plookup, hp]
    · have hrest : containsKey k rest = true := by
        simpa [containsKey, List.any_cons, hp] using h
      simp [plookup, hp, ih hrest]

theorem plookup_append_self {α : Type} (k : String) (v : α) :
    ∀ l : List (String × α), containsKey k l = false →
      plookup k (l ++ [(k, v)]) = some v := by
  intro l
  induction l with
  | nil => intro _; simp [plookup]
  | cons p rest ih =>
    intro h
    have hp : ¬ p.1 = k := by
      intro hk
      simp [containsKey, List.any_cons, hk] at h
    have hrest : containsKey k rest = false := by
      simpa [containsKey, List.any_cons, hp] using h
    simp [plookup, hp, ih hrest]

theorem plookup_dictInsert_self {α : Type} (l : List (String × α)) (k : String)
    (v : α) : plookup k (dictInsert l k v) = some v := by
  unfold dictInsert
  by_cases h : containsKey k l = true
  · simp [h, plookup_replace_self k v l h]
  · have h' : containsKey k l = false := by simpa using h
    simp [h', plookup_append_self k v l h']

theorem plookup_map_replace_ne {α : Type} (k k' : String) (v : α)
    (hne : k' ≠ k) :
    ∀ l : List (String × α),
      plookup k' (l.map (fun p => if p.1 = k then (k, v) else p)) = plookup k' l := by
  have hkk' : ¬ k = k' := fun hh => hne hh.symm
  intro l
  induction l with
  | nil => simp [plookup]
  | cons p rest ih =>
    by_cases hp : p.1 = k
    · have hpk' : ¬ p.1 = k' := by rw [hp]; exact hkk'
      simp [plookup, hp, hkk', hpk', ih]
    · by_cases hp' : p.1 = k'
      · simp [plookup, hp, hp', hne]
      · simp [plookup, hp, hp', ih]

theorem plookup_dictInsert_ne {α : Type} (l : List (String × α)) (k k' : String)
    (v : α) (hne : k' ≠ k) : plookup k' (dictInsert l k v) = plookup k' l := by
  have hkk' : ¬ k = k' := fun hh => hne hh.symm
  unfold dictInsert
  by_cases h : containsKey k l = true
  · simp [h, plookup_map_replace_ne k k' v hne l]
  · simp only [h, if_false, Bool.false_eq_true]
    rw [plookup_append]
    cases hl : plookup k' l with
    | some v' => simp
    | none => simp [plookup, hkk']

theorem mem_map_replace_self {α : Type} (k : String) (v : α) :
    ∀ l : List (String × α), containsKey k l = true →
      (k, v) ∈ l.map (fun p => if p.1 = k then (k, v) else p) := by
  intro l
  induction l with
  | nil => intro h; simp [containsKey] at h
  | cons p rest ih =>
    intro h
    by_cases hp : p.1 = k
    · simp [hp]
    · have hrest : containsKey k rest = true := by
        simpa [containsKey, List.any_cons, hp] using h
      simp only [List.map_cons, List.mem_cons]
      exact Or.inr (ih hrest)

theorem mem_dictInsert_self {α : Type} (l : List (String × α)) (k : String)
    (v : α) : (k, v) ∈ dictInsert l k v := by
  unfold dictInsert
  by_cases h : containsKey k l = true
  · simp only [h, if_true]
    exact mem_map_replace_self k v l h
  · simp [h]

theorem not_mem_keys_of_containsKey_false {α : Type} {l : List (String × α)}
    {k : String} (h : containsKey k l = false) : k ∉ l.map Prod.fst := by
  intro hmem
  obtain ⟨p, hp, hpk⟩ := List.mem_map.mp hmem
  have : containsKey k l = true := by
    simp only [containsKey, List.any_eq_true]
    exact ⟨p, hp, by simp [hpk]⟩
  simp [this] at h

theorem nodupKeys_dictInsert {α : Type} (l : List (String × α)) (k : String)
    (v : α) (h : (l.map Prod.fst).Nodup) :
    ((dictInsert l k v).map Prod.fst).Nodup := by
  unfold dictInsert
  by_cases hc : containsKey k l = true
  · simp only [hc, if_true]
    have hmaps : (l.map (fun p => if p.1 = k then (k, v) else p)).map Prod.fst
        = l.map Prod.fst := by
      rw [List.map_map]
      apply List.map_congr_left
      intro p _
      by_cases hp : p.1 = k <;> simp [hp]
    rw [hmaps]; exact h
  · have hc' : containsKey k l = false := by simpa using hc
    simp only [hc', if_false, Bool.false_eq_true, List.map_append]
    refine List.Nodup.append h (by simp) ?_
    intro a ha hb
    simp only [List.map_cons, List.map_nil, List.mem_singleton] at hb
    subst hb
    exact not_mem_keys_of_containsKey_false hc' ha

theorem plookup_eq_some_of_mem {α : Type} {l : List (String × α)} {k : String}
    {v : α} (hnodup : (l.map Prod.fst).Nodup) (hmem : (k, v) ∈ l) :
    plookup k l = some v := by
  induction l with
  | nil => simp at hmem
  | cons p rest ih =>
    rcases List.mem_cons.mp hmem with heq | hmemr
    · rw [← heq]; simp [plookup]
    · rw [List.map_cons] at hnodup
      have hnd := List.nodup_cons.mp hnodup
      have hp : ¬ p.1 = k := by
        intro hpk
        exact hnd.1 (hpk ▸ List.mem_map_of_mem Prod.fst hmemr)
      simp only [plookup, hp, if_false]
      exact ih hnd.2 hmemr

/-- The projection applied by `cleanedParams` to each entry. -/
def cleanEntry (p : String × PValue) : String × String :=
  (p.1, stripSpecial (pvalueStr p.2))

theorem cleanedParams_eq_map (now : Nat) (params : PDict) :
    cleanedParams now params =
      ((dictInsert params "wts" (PValue.pint (Int.ofNat now))).mergeSort
        (fun p q => p.1 ≤ q.1)).map cleanEntry := rfl

theorem plookup_cleanedParams (now : Nat) (params : PDict) (k : String)
    (v : PValue) (h : (params.map Prod.fst).Nodup)
    (hmem : (k, v) ∈ dictInsert params "wts" (PValue.pint (Int.ofNat now))) :
    plookup k (cleanedParams now params) = some (stripSpecial (pvalueStr v)) := by
  rw [cleanedParams_eq_map]
  have hperm :
      ((dictInsert params "wts" (PValue.pint (Int.ofNat now))).mergeSort
        (fun p q => p.1 ≤ q.1)).Perm
        (dictInsert params "wts" (PValue.pint (Int.ofNat now))) :=
    List.mergeSort_perm _ _
  have hmem2 : (k, v) ∈ (dictInsert params "wts"
      (PValue.pint (Int.ofNat now))).mergeSort (fun p q => p.1 ≤ q.1) :=
    hperm.mem_iff.mpr hmem
  have hmem3 : (k, stripSpecial (pvalueStr v)) ∈
      ((dictInsert params "wts" (PValue.pint (Int.ofNat now))).mergeSort
        (fun p q => p.1 ≤ q.1)).map cleanEntry :=
    List.mem_map_of_mem cleanEntry hmem2
  have hnodup_base := nodupKeys_dictInsert params "wts"
    (PValue.pint (Int.ofNat now)) h
  have hnodup_sorted :
      (((dictInsert params "wts" (PValue.pint (Int.ofNat now))).mergeSort
        (fun p q => p.1 ≤ q.1)).map Prod.fst).Nodup :=
    ((hperm.map Prod.fst).nodup_iff).mpr hnodup_base
  have hnodup_mapped :
      ((((dictInsert params "wts" (PValue.pint (Int.ofNat now))).mergeSort
        (fun p q => p.1 ≤ q.1)).map cleanEntry).map Prod.fst).Nodup := by
    rw [List.map_map]
    exact hnodup_sorted
  exact plookup_eq_some_of_mem hnodup_mapped hmem3

/-! ## Helper lemmas: decimal digits -/

theorem digitChar_isDigit : ∀ m, m < 10 → (Nat.digitChar m).isDigit = true := by
  decide

theorem toDigitsCore_digits (fuel : Nat) :
    ∀ (n : Nat) (acc : List Char), (∀ c ∈ acc, c.isDigit = true) →
      ∀ c ∈ Nat.toDigitsCore 10 fuel n acc, c.isDigit = true := by
  induction fuel with
  | zero =>
    intro n acc hacc c hc
    exact hacc c (by simpa [Nat.toDigitsCore] using hc)
  | succ f ih =>
    intro n acc hacc c hc
    have hd : (n % 10).digitChar.isDigit = true :=
      digitChar_isDigit _ (Nat.mod_lt _ (by norm_num))
    have hacc' : ∀ c' ∈ (n % 10).digitChar :: acc, c'.isDigit = true := by
      intro c' hc'
      rcases List.mem_cons.mp hc' with he | hm
      · rw [he]; exact hd
      · exact hacc c' hm
    simp only [Nat.toDigitsCore] at hc
    by_cases h0 : n / 10 = 0
    · rw [if_pos h0] at hc
      exact hacc' c hc
    · rw [if_neg h0] at hc
      exact ih (n / 10) _ hacc' c hc

theorem repr_digits (n : Nat) : ∀ c ∈ (Nat.repr n).data, c.isDigit = true := by
  intro c hc
  have : (Nat.repr n).data = Nat.toDigitsCore 10 (n + 1) n [] := rfl
  rw [this] at hc
  exact toDigitsCore_digits (n + 1) n [] (by intro c' hc'; simp at hc') c hc

theorem isDigit_not_special {c : Char} (h : c.isDigit = true) :
    specialChars.contains c = false := by
  rcases Bool.eq_false_or_eq_true (specialChars.contains c) with ht | hf
  case inr => exact hf
  case inl =>
    exfalso
    have hm : c ∈ specialChars := by simpa using ht
    fin_cases hm <;> simp_all

theorem stripSpecial_of_digits {s : String}
    (h : ∀ c ∈ s.data, c.isDigit = true) : stripSpecial s = s := by
  unfold stripSpecial
  have : s.data.filter (fun c => !(specialChars.contains c)) = s.data := by
    apply List.filter_eq_self.mpr
    intro c hc
    show (!(specialChars.contains c)) = true
    rw [isDigit_not_special (h c hc)]
    rfl
  rw [this]

theorem stripSpecial_repr (n : Nat) : stripSpecial (Nat.repr n) = Nat.repr n :=
  stripSpecial_of_digits (repr_digits n)

theorem mem_stripSpecial_not_special (s : String) :
    ∀ c ∈ (stripSpecial s).data, specialChars.contains c = false := by
  intro c hc
  unfold stripSpecial at hc
  have hc' : c ∈ s.data.filter (fun c => !(specialChars.contains c)) := hc
  have := List.of_mem_filter hc'
  simpa using this

/-! ## Helper lemmas: the mixin key -/

theorem mixFold_eq (orig : String) :
    ∀ (tab : List Nat), (∀ i ∈ tab, i < orig.data.length) →
      ∀ acc : List Char,
        tab.foldl (mixStep orig) (some acc) =
          some (acc ++ tab.map (fun i => orig.data.getD i 'A')) := by
  intro tab
  induction tab with
  | nil => intro _ acc; simp
  | cons i rest ih =>
    intro h acc
    have hi : i < orig.data.length := h i (List.mem_cons_self i rest)
    have hc : charAtF orig i = some (orig.data.getD i 'A') := by
      unfold charAtF
      rw [List.getD_eq_get?, List.get?_eq_get hi]
      rfl
    have hstep : mixStep orig (some acc) i = some (acc ++ [orig.data.getD i 'A']) := by
      simp [mixStep, hc]
    rw [List.foldl_cons, hstep,
      ih (fun j hj => h j (List.mem_cons_of_mem i hj)) (acc ++ [orig.data.getD i 'A'])]
    simp

theorem tab_indices_lt_64 : ∀ i ∈ MIXIN_KEY_ENC_TAB, i < 64 := by decide

theorem get_mixin_keyF_eq {orig : String} (h : 64 ≤ orig.length) :
    get_mixin_keyF orig = some (mixinOf orig) := by
  have hlen : ∀ i ∈ MIXIN_KEY_ENC_TAB, i < orig.data.length := by
    intro i hi
    have h64 : i < 64 := tab_indices_lt_64 i hi
    have hlen' : orig.length = orig.data.length := rfl
    omega
  unfold get_mixin_keyF mixinOf
  rw [mixFold_eq orig MIXIN_KEY_ENC_TAB hlen []]
  simp

theorem mem_dictInsert_elim {α : Type} {l : List (String × α)} {k : String}
    {v : α} {p : String × α} (hp : p ∈ dictInsert l k v) :
    p = (k, v) ∨ p ∈ l := by
  unfold dictInsert at hp
  by_cases hc : containsKey k l = true
  · rw [if_pos hc] at hp
    obtain ⟨q, hq, hpq⟩ := List.mem_map.mp hp
    by_cases hqk : q.1 = k
    · left; rw [← hpq]; simp [hqk]
    · right; rw [← hpq]; simp only [hqk, if_false]; exact hq
  · rw [if_neg hc] at hp
    rcases List.mem_append.mp hp with h1 | h2
    · right; exact h1
    · left; simpa using h2

theorem mem_cleanedParams_elim {now : Nat} {params : PDict} {p : String × String}
    (hp : p ∈ cleanedParams now params) : ∃ q, p = cleanEntry q := by
  rw [cleanedParams_eq_map] at hp
  obtain ⟨q, _, hpq⟩ := List.mem_map.mp hp
  exact ⟨q, hpq.symm⟩

/-! ## Claims about the Signature Engine -/

/-- C2 (confirmed): for 32-character key fragments, `_get_mixin_key` applied
to their concatenation succeeds and yields a 32-character string whose
character at position `i` is the character of the 64-character concatenation
at the index given by entry `i` of the permutation table; the derivation is a
pure function, so two calls with the same fragments yield the same string. -/
theorem C2_mixin_key_derivation (a b : String)
    (ha : a.length = 32) (hb : b.length = 32) :
    ∃ m : String, get_mixin_keyF (a ++ b) = some m ∧
      m.length = 32 ∧
      (∀ i, i < 32 →
        m.data.getD i 'A' = (a ++ b).data.getD (MIXIN_KEY_ENC_TAB.getD i 0) 'A') ∧
      (∀ a' b' : String, a' = a → b' = b →
        get_mixin_keyF (a' ++ b') = some m) := by
  have h64 : 64 ≤ (a ++ b).length := by
    rw [String.length_append, ha, hb]
  have heq := get_mixin_keyF_eq h64
  refine ⟨mixinOf (a ++ b), heq, ?_, ?_, ?_⟩
  · show ((MIXIN_KEY_ENC_TAB.map
        (fun i => (a ++ b).data.getD i 'A')).take 32).length = 32
    rw [List.length_take, List.length_map]
    have : MIXIN_KEY_ENC_TAB.length = 64 := by decide
    rw [this]
    decide
  · intro i hi
    have hlen64 : MIXIN_KEY_ENC_TAB.length = 64 := by decide
    have hi64 : i < MIXIN_KEY_ENC_TAB.length := by omega
    have hm : (mixinOf (a ++ b)).data =
        (MIXIN_KEY_ENC_TAB.map (fun j => (a ++ b).data.getD j 'A')).take 32 := rfl
    rw [hm, List.getD_eq_get?, List.get?_take hi, List.get?_map,
      List.get?_eq_get hi64]
    have : MIXIN_KEY_ENC_TAB.get ⟨i, hi64⟩ = MIXIN_KEY_ENC_TAB.getD i 0 := by
      rw [List.getD_eq_get?, List.get?_eq_get hi64]; rfl
    rw [this]
    rfl
  · intro a' b' ha' hb'
    rw [ha', hb']
    exact heq

/-- C2 witness: concrete 32-character fragments. -/
theorem C2_witness :
    ("0123456789abcdef0123456789abcdef" : String).length = 32 ∧
    ("ghijklmnopqrstuvghijklmnopqrstuv" : String).length = 32 ∧
    (∃ m : String,
      get_mixin_keyF ("0123456789abcdef0123456789abcdef" ++
        "ghijklmnopqrstuvghijklmnopqrstuv") = some m ∧
      m.length = 32 ∧
      (∀ i, i < 32 →
        m.data.getD i 'A' =
          ("0123456789abcdef0123456789abcdef" ++
            "ghijklmnopqrstuvghijklmnopqrstuv").data.getD
            (MIXIN_KEY_ENC_TAB.getD i 0) 'A') ∧
      (∀ a' b' : String, a' = "0123456789abcdef0123456789abcdef" →
        b' = "ghijklmnopqrstuvghijklmnopqrstuv" →
        get_mixin_keyF (a' ++ b') = some m)) :=
  ⟨rfl, rfl, C2_mixin_key_derivation _ _ rfl rfl⟩

/-- C1 counterexample: the claim quantifies over every non-empty key pair,
but with the non-empty pair `("a", "b")` the permutation table indexes past
the end of the 2-character concatenation, so `_enc_wbi` raises `IndexError`
(embedded: returns `none`) and returns no mapping at all. -/
theorem C1_counterexample :
    enc_wbiF (fun _ => "") 0 [] "a" "b" = none := by decide

/-- C1 (amended; the counterexample forces the key pair to be long enough
for the permutation table, i.e. concatenation of at least 64 characters —
`! ` in place of the claimed "non-empty"): for every parameter mapping with
unique keys and every such key pair, `_enc_wbi` returns a mapping whose
`wts` field is the current Unix time in seconds and whose `w_rid` field is
the hex MD5 digest of (the URL-encoded query string of the parameters sorted
lexicographically by key, with the characters `!'()*` removed from every
stringified value, `wts` included) concatenated with the mixin key; no
character of that set occurs in any signed value other than `w_rid`. -/
theorem C1_enc_wbi_signing (md5hex : String → String) (now : Nat)
    (params : PDict) (img_key sub_key : String)
    (h64 : 64 ≤ (img_key ++ sub_key).length)
    (hnodup : (params.map Prod.fst).Nodup) :
    ∃ res side, enc_wbiF md5hex now params img_key sub_key = some (res, side) ∧
      plookup "wts" res = some (Nat.repr now) ∧
      plookup "w_rid" res = some (md5hex
        (urlencode (cleanedParams now params) ++ mixinOf (img_key ++ sub_key))) ∧
      (∀ p ∈ res, p.1 ≠ "w_rid" →
        ∀ c ∈ p.2.data, specialChars.contains c = false) := by
  refine ⟨dictInsert (cleanedParams now params) "w_rid"
      (md5hex (urlencode (cleanedParams now params) ++ mixinOf (img_key ++ sub_key))),
    dictInsert params "wts" (PValue.pint (Int.ofNat now)), ?_, ?_, ?_, ?_⟩
  · unfold enc_wbiF
    rw [get_mixin_keyF_eq h64]
    rfl
  · rw [plookup_dictInsert_ne _ _ _ _ (by decide)]
    have hmem := mem_dictInsert_self params "wts" (PValue.pint (Int.ofNat now))
    have := plookup_cleanedParams now params "wts"
      (PValue.pint (Int.ofNat now)) hnodup hmem
    rw [this]
    have hps : pvalueStr (PValue.pint (Int.ofNat now)) = Nat.repr now := rfl
    rw [hps, stripSpecial_repr]
  · exact plookup_dictInsert_self _ _ _
  · intro p hp hpne c hc
    rcases mem_dictInsert_elim hp with heq | hmem
    · exact absurd (by rw [heq]) hpne
    · obtain ⟨q, hq⟩ := mem_cleanedParams_elim hmem
      have : p.2 = stripSpecial (pvalueStr q.2) := by rw [hq]; rfl
      rw [this] at hc
      exact mem_stripSpecial_not_special _ c hc

/-- C1 witness: a concrete signing call with 32+32-character keys and a
one-entry parameter dict. -/
theorem C1_witness :
    64 ≤ (("aaaaaaaaaaaaaaaaaaaaaaaaaaaaaaaa" : String) ++
      "bbbbbbbbbbbbbbbbbbbbbbbbbbbbbbbb").length ∧
    (∃ res side, enc_wbiF (fun s => s) 1700000000 [("keyword", PValue.pstr "hi")]
        "aaaaaaaaaaaaaaaaaaaaaaaaaaaaaaaa" "bbbbbbbbbbbbbbbbbbbbbbbbbbbbbbbb" =
        some (res, side) ∧
      plookup "wts" res = some (Nat.repr 1700000000) ∧
      plookup "w_rid" res = some ((fun s => s)
        (urlencode (cleanedParams 1700000000 [("keyword", PValue.pstr "hi")]) ++
          mixinOf ("aaaaaaaaaaaaaaaaaaaaaaaaaaaaaaaa" ++
            "bbbbbbbbbbbbbbbbbbbbbbbbbbbbbbbb"))) ∧
      (∀ p ∈ res, p.1 ≠ "w_rid" →
        ∀ c ∈ p.2.data, specialChars.contains c = false)) :=
  ⟨by decide, C1_enc_wbi_signing (fun s => s) 1700000000
    [("keyword", PValue.pstr "hi")] _ _ (by decide) (by decide)⟩

/-- C9 counterexample: the claim says the caller's mapping is left unchanged,
but `_enc_wbi` executes `params['wts'] = curr_time` on the caller's dict
before rebinding the local name, so an initially empty caller dict holds
`{'wts': 5}` after the call. -/
theorem C9_counterexample :
    (enc_wbiF (fun _ => "") 5 []
        "aaaaaaaaaaaaaaaaaaaaaaaaaaaaaaaa" "bbbbbbbbbbbbbbbbbbbbbbbbbbbbbbbb").map
      (fun r => r.2) ≠ some ([] : PDict) := by decide

/-- C9 (amended; the counterexample forces admitting the `wts` write-back):
the signing operation's only effect on the caller's parameter mapping is
setting its `wts` entry to the current time; every other key's binding is
unchanged, and the signed result is a fresh value handed back to the caller. -/
theorem C9_enc_wbi_frame (md5hex : String → String) (now : Nat)
    (params : PDict) (img_key sub_key : String)
    (h64 : 64 ≤ (img_key ++ sub_key).length) :
    ∃ res side, enc_wbiF md5hex now params img_key sub_key = some (res, side) ∧
      plookup "wts" side = some (PValue.pint (Int.ofNat now)) ∧
      (∀ k, k ≠ "wts" → plookup k side = plookup k params) := by
  refine ⟨dictInsert (cleanedParams now params) "w_rid"
      (md5hex (urlencode (cleanedParams now params) ++ mixinOf (img_key ++ sub_key))),
    dictInsert params "wts" (PValue.pint (Int.ofNat now)), ?_, ?_, ?_⟩
  · unfold enc_wbiF
    rw [get_mixin_keyF_eq h64]
    rfl
  · exact plookup_dictInsert_self _ _ _
  · intro k hk
    exact plookup_dictInsert_ne _ _ _ _ hk

/-- C9 witness: a concrete frame-property instance. -/
theorem C9_witness :
    64 ≤ (("aaaaaaaaaaaaaaaaaaaaaaaaaaaaaaaa" : String) ++
      "bbbbbbbbbbbbbbbbbbbbbbbbbbbbbbbb").length ∧
    (∃ res side, enc_wbiF (fun _ => "d") 7 [("page", PValue.pint 2)]
        "aaaaaaaaaaaaaaaaaaaaaaaaaaaaaaaa" "bbbbbbbbbbbbbbbbbbbbbbbbbbbbbbbb" =
        some (res, side) ∧
      plookup "wts" side = some (PValue.pint (Int.ofNat 7)) ∧
      (∀ k, k ≠ "wts" → plookup k side = plookup k [("page", PValue.pint 2)])) :=
  ⟨by decide, C9_enc_wbi_frame (fun _ => "d") 7 [("page", PValue.pint 2)] _ _ (by decide)⟩

/-! ## Claims about the Credential Cache -/

/-- C3 (confirmed): a cache holding a credential fetched at time `T` serves
it unchanged with no network fetch at any query time `T'` with
`T' − T < TTL` (3600 s for the WBI signing-key cache, 86400 s for the
anti-bot-cookie cache), and issues exactly one refresh attempt at the first
query with `T' − T ≥ TTL`. -/
theorem C3_cache_ttl (stW : WbiCache) (stB : BuvidCache) (nowW nowB : Int)
    (fW fB : Option (String × String))
    (hW : stW.img_key ≠ "" ∧ stW.sub_key ≠ "")
    (hB : stB.buvid3 ≠ "") :
    ((nowW - stW.last_update < WBI_KEYS_CACHE_TTL →
        get_wbi_keys stW nowW fW = ((stW.img_key, stW.sub_key), stW, 0)) ∧
     (WBI_KEYS_CACHE_TTL ≤ nowW - stW.last_update →
        (get_wbi_keys stW nowW fW).2.2 = 1)) ∧
    ((nowB - stB.last_update < BUVID3_CACHE_TTL →
        get_buvid3 stB nowB fB = ((stB.buvid3, stB.b_nut), stB, 0)) ∧
     (BUVID3_CACHE_TTL ≤ nowB - stB.last_update →
        (get_buvid3 stB nowB fB).2.2 = 1)) := by
  constructor
  · constructor
    · intro hfresh
      unfold get_wbi_keys
      rw [if_pos ⟨hW.1, hW.2, hfresh⟩]
    · intro hstale
      unfold get_wbi_keys
      rw [if_neg (by push_neg; intro _ _; omega)]
      cases fW with
      | none => simp only []; split_ifs <;> rfl
      | some urls => simp only []; split_ifs <;> rfl
  · constructor
    · intro hfresh
      unfold get_buvid3
      rw [if_pos ⟨hB, hfresh⟩]
    · intro hstale
      unfold get_buvid3
      rw [if_neg (by push_neg; intro _; omega)]
      cases fB with
      | none => simp only []; split_ifs <;> rfl
      | some cookies => simp only []; split_ifs <;> rfl

/-- C3 witness: concrete fresh-hit instances for both caches. -/
theorem C3_witness :
    ((⟨"ik", "sk", 100⟩ : WbiCache).img_key ≠ "" ∧
      (⟨"ik", "sk", 100⟩ : WbiCache).sub_key ≠ "") ∧
    ((⟨"bv", "bn", 100⟩ : BuvidCache).buvid3 ≠ "") ∧
    ((((100 : Int) + 3599) - (⟨"ik", "sk", 100⟩ : WbiCache).last_update <
        WBI_KEYS_CACHE_TTL →
      get_wbi_keys ⟨"ik", "sk", 100⟩ (100 + 3599) none =
        (("ik", "sk"), ⟨"ik", "sk", 100⟩, 0)) ∧
     (WBI_KEYS_CACHE_TTL ≤ ((100 : Int) + 3599) -
        (⟨"ik", "sk", 100⟩ : WbiCache).last_update →
      (get_wbi_keys ⟨"ik", "sk", 100⟩ (100 + 3599) none).2.2 = 1)) ∧
    ((((100 : Int) + 86400) - (⟨"bv", "bn", 100⟩ : BuvidCache).last_update <
        BUVID3_CACHE_TTL →
      get_buvid3 ⟨"bv", "bn", 100⟩ (100 + 86400) none =
        (("bv", "bn"), ⟨"bv", "bn", 100⟩, 0)) ∧
     (BUVID3_CACHE_TTL ≤ ((100 : Int) + 86400) -
        (⟨"bv", "bn", 100⟩ : BuvidCache).last_update →
      (get_buvid3 ⟨"bv", "bn", 100⟩ (100 + 86400) none).2.2 = 1)) := by
  refine ⟨by decide, by decide, ?_⟩
  have h := C3_cache_ttl ⟨"ik", "sk", 100⟩ ⟨"bv", "bn", 100⟩
    (100 + 3599) (100 + 86400) none none (by decide) (by decide)
  exact ⟨h.1, h.2⟩

/-- C4 (confirmed): when a refresh is attempted (cache missing or stale) and
the fetch fails or the response is missing required fields, a previously
cached credential is returned unchanged with the cache state unmodified; if
no previous value exists an empty credential is returned (not raised) with
the cache state unmodified, and `_sign_params_wbi` skips signing (returns the
parameters unsigned) whenever either WBI key is empty. -/
theorem C4_cache_degradation (stW : WbiCache) (stB : BuvidCache)
    (nowW nowB : Int) (fW fB : Option (String × String))
    (hmissW : ¬ (stW.img_key ≠ "" ∧ stW.sub_key ≠ "" ∧
      nowW - stW.last_update < WBI_KEYS_CACHE_TTL))
    (hbadW : ∀ urls, fW = some urls →
      wbiKeyOfUrl urls.1 = "" ∨ wbiKeyOfUrl urls.2 = "")
    (hmissB : ¬ (stB.buvid3 ≠ "" ∧ nowB - stB.last_update < BUVID3_CACHE_TTL))
    (hbadB : ∀ cookies, fB = some cookies → cookies.1 = "") :
    ((stW.img_key ≠ "" ∧ stW.sub_key ≠ "" →
        get_wbi_keys stW nowW fW = ((stW.img_key, stW.sub_key), stW, 1)) ∧
     (¬ (stW.img_key ≠ "" ∧ stW.sub_key ≠ "") →
        get_wbi_keys stW nowW fW = (("", ""), stW, 1))) ∧
    ((stB.buvid3 ≠ "" →
        get_buvid3 stB nowB fB = ((stB.buvid3, stB.b_nut), stB, 1)) ∧
     (stB.buvid3 = "" →
        get_buvid3 stB nowB fB = (("", ""), stB, 1))) ∧
    (∀ (md5hex : String → String) (now2 : Nat) (params : PDict)
        (img_key sub_key : String), img_key = "" ∨ sub_key = "" →
      sign_params_wbiF md5hex now2 params img_key sub_key = some params) := by
  have hwbi : get_wbi_keys stW nowW fW =
      (if stW.img_key ≠ "" ∧ stW.sub_key ≠ ""
       then ((stW.img_key, stW.sub_key), stW, 1)
       else (("", ""), stW, 1)) := by
    unfold get_wbi_keys
    rw [if_neg hmissW]
    cases fW with
    | none => rfl
    | some urls =>
      have hbad := hbadW urls rfl
      simp only []
      rw [if_neg (by
        intro hcon
        rcases hbad with h1 | h1
        · exact hcon.1 h1
        · exact hcon.2 h1)]
  have hbuv : get_buvid3 stB nowB fB =
      (if stB.buvid3 ≠ "" then ((stB.buvid3, stB.b_nut), stB, 1)
       else (("", ""), stB, 1)) := by
    unfold get_buvid3
    rw [if_neg hmissB]
    cases fB with
    | none => rfl
    | some cookies =>
      have hbad := hbadB cookies rfl
      simp only []
      rw [if_neg (by intro hcon; exact hcon hbad)]
  refine ⟨⟨?_, ?_⟩, ⟨?_, ?_⟩, ?_⟩
  · intro hprior
    rw [hwbi, if_pos hprior]
  · intro hnoprior
    rw [hwbi, if_neg hnoprior]
  · intro hprior
    rw [hbuv, if_pos hprior]
  · intro hnoprior
    rw [hbuv, if_neg (by intro h; exact h hnoprior)]
  · intro md5hex now2 params img_key sub_key hempty
    unfold sign_params_wbiF
    rw [if_pos hempty]

/-- C4 witness: a stale WBI cache with a failed fetch, an empty anti-bot
cache with a fetch missing its required cookie, and a signing skip. -/
theorem C4_witness :
    (¬ ((⟨"ik", "sk", 0⟩ : WbiCache).img_key ≠ "" ∧
        (⟨"ik", "sk", 0⟩ : WbiCache).sub_key ≠ "" ∧
        (5000 : Int) - (⟨"ik", "sk", 0⟩ : WbiCache).last_update <
          WBI_KEYS_CACHE_TTL)) ∧
    (¬ ((⟨"", "", 0⟩ : BuvidCache).buvid3 ≠ "" ∧
        (100 : Int) - (⟨"", "", 0⟩ : BuvidCache).last_update <
          BUVID3_CACHE_TTL)) ∧
    (get_wbi_keys ⟨"ik", "sk", 0⟩ 5000 none = (("ik", "sk"), ⟨"ik", "sk", 0⟩, 1)) ∧
    (get_buvid3 ⟨"", "", 0⟩ 100 (some ("", "bn")) = (("", ""), ⟨"", "", 0⟩, 1)) ∧
    (sign_params_wbiF (fun s => s) 9 [("page", PValue.pint 1)] "" "xk" =
      some [("page", PValue.pint 1)]) := by
  refine ⟨by decide, by decide, ?_, ?_, ?_⟩
  · exact (C4_cache_degradation ⟨"ik", "sk", 0⟩ ⟨"", "", 0⟩ 5000 100 none
      (some ("", "bn")) (by decide) (by intro u h; cases h)
      (by decide) (by intro c h; cases h; rfl)).1.1 (by decide)
  · exact (C4_cache_degradation ⟨"ik", "sk", 0⟩ ⟨"", "", 0⟩ 5000 100 none
      (some ("", "bn")) (by decide) (by intro u h; cases h)
      (by decide) (by intro c h; cases h; rfl)).2.1.2 rfl
  · exact (C4_cache_degradation ⟨"ik", "sk", 0⟩ ⟨"", "", 0⟩ 5000 100 none
      (some ("", "bn")) (by decide) (by intro u h; cases h)
      (by decide) (by intro c h; cases h; rfl)).2.2 (fun s => s) 9
      [("page", PValue.pint 1)] "" "xk" (Or.inl rfl)

/-! ## Claims about the Resolver -/

theorem bvMatch_cons3 (c1 c2 c3 : Char) (r : List Char) :
    bvMatch (c1 :: c2 :: c3 :: r) =
      (if c1 = 'B' ∧ c2 = 'V' ∧ isWordChar c3 then
        some (c1 :: c2 :: c3 :: r.takeWhile isWordChar)
      else bvMatch (c2 :: c3 :: r)) := rfl

theorem bvMatch_isSome_of_decomp :
    ∀ url : List Char,
      (∃ pre c rest, isWordChar c = true ∧
        url = pre ++ 'B' :: 'V' :: c :: rest) →
      (bvMatch url).isSome = true := by
  intro url
  induction url with
  | nil =>
    rintro ⟨pre, c, rest, hc, habs⟩
    cases pre <;> simp at habs
  | cons x xs ih =>
    rintro ⟨pre, c, rest, hc, heq⟩
    cases pre with
    | nil =>
      simp only [List.nil_append] at heq
      injection heq with h1 h2
      subst h1
      subst h2
      simp [bvMatch, hc]
    | cons p pre' =>
      simp only [List.cons_append] at heq
      injection heq with h1 h2
      subst h1
      subst h2
      rcases hsh : pre' ++ 'B' :: 'V' :: c :: rest with _ | ⟨c2, l2⟩
      · exfalso
        cases pre' <;> simp at hsh
      · rcases l2 with _ | ⟨c3, r⟩
        · exfalso
          have := congrArg List.length hsh
          simp at this
          omega
        · rw [bvMatch_cons3]
          split
          · simp
          · rw [← hsh]
            exact ih ⟨pre', c, rest, hc, rfl⟩

/-- C5 (confirmed): a URL whose text directly contains a video code yields
that code with no network call; a URL without a direct match on the
short-link domain issues exactly one redirect-following HEAD request and the
code is extracted from the final resolved URL; on network failure (or no
match) the result is `none`, never an exception. -/
theorem C5_extract_bvid (url : List Char) (head : Option (List Char)) :
    ((∃ pre c rest, isWordChar c = true ∧
        url = pre ++ 'B' :: 'V' :: c :: rest) →
      (extract_bvid url head).2 = 0 ∧ (extract_bvid url head).1.isSome = true) ∧
    (∀ m, bvMatch url = some m → extract_bvid url head = (some m, 0)) ∧
    (bvMatch url = none → containsSeq "b23.tv".data url = true →
      (extract_bvid url head).2 = 1 ∧
      (extract_bvid url head).1 = head.bind bvMatch) ∧
    (bvMatch url = none → head = none → (extract_bvid url head).1 = none) := by
  refine ⟨?_, ?_, ?_, ?_⟩
  · intro hdecomp
    have hsome := bvMatch_isSome_of_decomp url hdecomp
    obtain ⟨m, hm⟩ := Option.isSome_iff_exists.mp hsome
    unfold extract_bvid
    rw [hm]
    exact ⟨rfl, rfl⟩
  · intro m hm
    unfold extract_bvid
    rw [hm]
  · intro hnone hb23
    unfold extract_bvid
    rw [hnone, if_pos hb23]
    cases head with
    | none => exact ⟨rfl, rfl⟩
    | some finalUrl => exact ⟨rfl, rfl⟩
  · intro hnone hhead
    subst hhead
    unfold extract_bvid
    rw [hnone]
    by_cases hb : containsSeq "b23.tv".data url = true
    · rw [if_pos hb]
    · rw [if_neg hb]

/-- C5 witness: a direct-match URL resolves with zero fetches, and a
short-link URL with a failed HEAD yields `none` after one fetch. -/
theorem C5_witness :
    (extract_bvid "https://www.bilibili.com/video/BV1x341177NN".data none =
      (some "BV1x341177NN".data, 0)) ∧
    (bvMatch "https://b23.tv/abcdef".data = none ∧
      containsSeq "b23.tv".data "https://b23.tv/abcdef".data = true ∧
      (extract_bvid "https://b23.tv/abcdef".data none).2 = 1 ∧
      (extract_bvid "https://b23.tv/abcdef".data none).1 =
        Option.bind none bvMatch) := by
  constructor
  · exact (C5_extract_bvid "https://www.bilibili.com/video/BV1x341177NN".data
      none).2.1 "BV1x341177NN".data (by decide)
  · refine ⟨by decide, by decide, ?_⟩
    exact (C5_extract_bvid "https://b23.tv/abcdef".data none).2.2.1
      (by decide) (by decide)

/-! ## Claims about search parameter filtering -/

theorem match_option_id {α : Type} (o : Option α) :
    (match o with
     | some v => some v
     | none => none) = o := by
  cases o with
  | none => rfl
  | some v => rfl

theorem plookup_ite {α : Type} (k : String) (c : Prop) [Decidable c]
    (A B : List (String × α)) :
    plookup k (if c then A else B) =
      if c then plookup k A else plookup k B := by
  by_cases h : c
  · simp [h]
  · simp [h]

theorem plookup_optField (k k' : String) (cond : Prop) [Decidable cond]
    (v : Option PValue) :
    plookup k (optField k' cond v) =
      if k' = k then (if cond then v else none) else none := by
  unfold optField
  cases v with
  | none =>
    simp only [plookup]
    by_cases hk : k' = k <;> by_cases hc : cond <;> simp [hk, hc]
  | some x =>
    by_cases hk : k' = k <;> by_cases hc : cond <;> simp [plookup, hk, hc]

/-- C6 (confirmed): the outbound search parameter set contains only the
fields applicable to the given `search_type`: `duration`/`tids` appear
exactly when the type is `video` and the argument was supplied,
`user_type`/`order_sort` exactly for `bili_user`, `category_id` exactly for
`article`/`photo`; everything else is silently dropped. -/
theorem C6_search_field_filtering (a : SearchArgs) :
    plookup "duration" (search_by_type_params a) =
      (if a.search_type = "video" then a.duration.map PValue.pint else none) ∧
    plookup "tids" (search_by_type_params a) =
      (if a.search_type = "video" then a.tids.map PValue.pint else none) ∧
    plookup "user_type" (search_by_type_params a) =
      (if a.search_type = "bili_user" then a.user_type.map PValue.pint else none) ∧
    plookup "order_sort" (search_by_type_params a) =
      (if a.search_type = "bili_user" then a.order_sort.map PValue.pint else none) ∧
    plookup "category_id" (search_by_type_params a) =
      (if a.search_type = "article" ∨ a.search_type = "photo"
       then a.category_id.map PValue.pint else none) := by
  refine ⟨?_, ?_, ?_, ?_, ?_⟩ <;>
    simp [search_by_type_params, plookup_append, plookup_ite, plookup_optField,
      plookup, ite_self, match_option_id]

/-- C10 (confirmed): the publish-time window sent upstream obeys the
precedence `recent_weeks > recent_days > explicit pubtime` — when
`recent_weeks > 0` the window is `[now − weeks·7·24·3600, now]` regardless of
the caller-supplied bounds, else when `recent_days > 0` it is
`[now − days·24·3600, now]`, else the caller-supplied bounds are used — and a
pubtime field equal to 0 is never included in the outbound parameters. -/
theorem C10_pubtime_precedence (now : Nat) (sa : ServerSearchArgs) :
    (sa.recent_weeks > 0 →
      serverPubtimes now sa.recent_weeks sa.recent_days sa.pubtime_begin_s
          sa.pubtime_end_s =
        ((now : Int) - sa.recent_weeks * 7 * 24 * 3600, (now : Int)) ∧
      (∀ pb pe : Int, serverPubtimes now sa.recent_weeks sa.recent_days pb pe =
        serverPubtimes now sa.recent_weeks sa.recent_days sa.pubtime_begin_s
          sa.pubtime_end_s)) ∧
    (sa.recent_weeks ≤ 0 → sa.recent_days > 0 →
      serverPubtimes now sa.recent_weeks sa.recent_days sa.pubtime_begin_s
          sa.pubtime_end_s =
        ((now : Int) - sa.recent_days * 24 * 3600, (now : Int)) ∧
      (∀ pb pe : Int, serverPubtimes now sa.recent_weeks sa.recent_days pb pe =
        serverPubtimes now sa.recent_weeks sa.recent_days sa.pubtime_begin_s
          sa.pubtime_end_s)) ∧
    (sa.recent_weeks ≤ 0 → sa.recent_days ≤ 0 →
      serverPubtimes now sa.recent_weeks sa.recent_days sa.pubtime_begin_s
          sa.pubtime_end_s = (sa.pubtime_begin_s, sa.pubtime_end_s)) ∧
    (plookup "pubtime_begin_s" (server_search_params now sa) =
      (if (serverPubtimes now sa.recent_weeks sa.recent_days sa.pubtime_begin_s
          sa.pubtime_end_s).1 ≠ 0
       then some (PValue.pint (serverPubtimes now sa.recent_weeks sa.recent_days
         sa.pubtime_begin_s sa.pubtime_end_s).1)
       else none)) ∧
    (plookup "pubtime_end_s" (server_search_params now sa) =
      (if (serverPubtimes now sa.recent_weeks sa.recent_days sa.pubtime_begin_s
          sa.pubtime_end_s).2 ≠ 0
       then some (PValue.pint (serverPubtimes now sa.recent_weeks sa.recent_days
         sa.pubtime_begin_s sa.pubtime_end_s).2)
       else none)) := by
  refine ⟨?_, ?_, ?_, ?_, ?_⟩
  · intro hw
    constructor
    · unfold serverPubtimes
      rw [if_pos hw]
    · intro pb pe
      unfold serverPubtimes
      rw [if_pos hw, if_pos hw]
  · intro hw hd
    constructor
    · unfold serverPubtimes
      rw [if_neg (by omega), if_pos hd]
    · intro pb pe
      unfold serverPubtimes
      rw [if_neg (by omega : ¬ sa.recent_weeks > 0), if_pos hd]
      rw [if_neg (by omega : ¬ sa.recent_weeks > 0), if_pos hd]
  · intro hw hd
    unfold serverPubtimes
    rw [if_neg (by omega), if_neg (by omega)]
  · simp [server_search_params, serverToSearchArgs, search_by_type_params,
      plookup_append, plookup_ite, plookup_optField, plookup, ite_self,
      match_option_id]
  · simp [server_search_params, serverToSearchArgs, search_by_type_params,
      plookup_append, plookup_ite, plookup_optField, plookup, ite_self,
      match_option_id]

/-- C10 witness: `recent_weeks = 2` overrides both `recent_days = 5` and the
caller-supplied window `[111, 222]`. -/
theorem C10_witness :
    ((2 : Int) > 0) ∧
    (serverPubtimes 1000000 2 5 111 222 =
      ((1000000 : Int) - 2 * 7 * 24 * 3600, (1000000 : Int))) ∧
    (∀ pb pe : Int, serverPubtimes 1000000 2 5 pb pe =
      serverPubtimes 1000000 2 5 111 222) ∧
    (plookup "pubtime_begin_s" (server_search_params 1000000
        ⟨"kw", "video", "click", 1, none, none, none, none, none,
          111, 222, 5, 2⟩) =
      (if (serverPubtimes 1000000 2 5 111 222).1 ≠ 0
       then some (PValue.pint (serverPubtimes 1000000 2 5 111 222).1)
       else none)) := by
  have h := C10_pubtime_precedence 1000000
    ⟨"kw", "video", "click", 1, none, none, none, none, none, 111, 222, 5, 2⟩
  have h1 := h.1 (by decide)
  exact ⟨by decide, h1.1, h1.2, h.2.2.2.1⟩

/-! ## Claims about the Content Fetchers -/

/-- C8 (confirmed): when the subtitle listing succeeds, a failure fetching a
single track's body only skips that track: the result is exactly the
successfully fetched tracks (among those with a content URL) and the error
component is absent. -/
theorem C8_subtitle_partial_success (r : SubListResp)
    (bodyFetch : String → Option (List String))
    (hcode : r.code = 0) (hne : r.subtitles ≠ []) :
    (get_subtitles_run (some r) bodyFetch).2 = none ∧
    (get_subtitles_run (some r) bodyFetch).1 =
      r.subtitles.filterMap (fun m =>
        if m.subtitle_url ≠ "" then
          (bodyFetch ("https:" ++ m.subtitle_url)).map (fun body => (m.lan, body))
        else none) ∧
    (∀ m ∈ r.subtitles, ∀ body, m.subtitle_url ≠ "" →
      bodyFetch ("https:" ++ m.subtitle_url) = some body →
      (m.lan, body) ∈ (get_subtitles_run (some r) bodyFetch).1) := by
  have hrun : get_subtitles_run (some r) bodyFetch =
      (r.subtitles.filterMap (fun m =>
        if m.subtitle_url ≠ "" then
          (bodyFetch ("https:" ++ m.subtitle_url)).map (fun body => (m.lan, body))
        else none), none) := by
    simp only [get_subtitles_run]
    rw [if_pos ⟨hcode, hne⟩]
  refine ⟨by rw [hrun], by rw [hrun], ?_⟩
  intro m hm body hurl hbody
  rw [hrun]
  apply List.mem_filterMap.mpr
  exact ⟨m, hm, by rw [if_pos hurl, hbody]; rfl⟩

/-- C8 witness: two listed tracks of which one body fetch fails yield a
one-element result list with no top-level error. -/
theorem C8_witness :
    ((⟨0, [⟨"zh-CN", "//a1"⟩, ⟨"en", "//a2"⟩]⟩ : SubListResp).code = 0) ∧
    ((⟨0, [⟨"zh-CN", "//a1"⟩, ⟨"en", "//a2"⟩]⟩ : SubListResp).subtitles ≠ []) ∧
    (get_subtitles_run (some ⟨0, [⟨"zh-CN", "//a1"⟩, ⟨"en", "//a2"⟩]⟩)
        (fun u => if u = "https://a1" then some ["hello"] else none) =
      ([("zh-CN", ["hello"])], none)) := by
  refine ⟨rfl, by decide, ?_⟩
  have h := C8_subtitle_partial_success
    ⟨0, [⟨"zh-CN", "//a1"⟩, ⟨"en", "//a2"⟩]⟩
    (fun u => if u = "https://a1" then some ["hello"] else none)
    rfl (by decide)
  have h1 := h.1
  have h2 := h.2.1
  have h2' : (get_subtitles_run (some ⟨0, [⟨"zh-CN", "//a1"⟩, ⟨"en", "//a2"⟩]⟩)
      (fun u => if u = "https://a1" then some ["hello"] else none)).1 =
      [("zh-CN", ["hello"])] := by
    rw [h2]; decide
  exact Prod.ext h2' h1

/-! ## Claims about the tool boundary -/

/-- C7 counterexample: the claim says all four tool operations return a
list, but the `search` tool returns a Python dict — here, for an invalid
search type, the dict `{"error": ...}` — so its return value is not a list. -/
theorem C7_counterexample :
    ToolReturn.isAList (search_tool (fun _ (x : Unit) => x) 0
      ⟨"kw", "bad_type", "click", 1, none, none, none, none, none, 0, 0, 0, 0⟩
      none) = false := by decide

theorem singleton_text_all (s : String) :
    ∀ i ∈ [ToolItem.text s], ∃ t, i = ToolItem.text t := by
  intro i hi
  simp only [List.mem_singleton] at hi
  exact ⟨s, hi⟩

/-- C7 (amended; the counterexample forces the search clause to be a dict):
for every input, each of the three URL tools (`get_subtitles`,
`get_danmaku`, `get_comments`) returns a list that is either a list of data
records or a singleton human-readable message, while the `search` tool
returns a mapping that is either the result object or a single-entry
`{"error": msg}` mapping; no operation raises (each is a total function into
its returned value). -/
theorem C7_tool_boundary (ι : Type) (fmt : String → ι → ι) (now : Nat)
    (url : List Char) (head : Option (List Char)) (view : Option ViewResp)
    (subResp : Option SubListResp) (bodyFetch : String → Option (List String))
    (dmResp : Option (List String)) (cmResp : Option CommentsResp)
    (sa : ServerSearchArgs) (resp : Option (SearchResp ι)) :
    (∃ xs, get_subtitles_tool ι url head view subResp bodyFetch =
        ToolReturn.rlist xs ∧
      ((∀ i ∈ xs, ∃ lan content, i = ToolItem.subRec lan content) ∨
       (∃ s, xs = [ToolItem.text s]))) ∧
    (∃ xs, get_danmaku_tool ι url head view dmResp = ToolReturn.rlist xs ∧
      (∀ i ∈ xs, ∃ s, i = ToolItem.text s)) ∧
    (∃ xs, get_comments_tool ι url head view cmResp = ToolReturn.rlist xs ∧
      ((∀ i ∈ xs, ∃ u c l, i = ToolItem.comRec u c l) ∨
       (∃ s, xs = [ToolItem.text s]))) ∧
    (∃ d, search_tool fmt now sa resp = ToolReturn.rdict d ∧
      ((∃ s, d = [("error", DVal.vstr s)]) ∨
       (∃ rv pg ps nr np, d = [("results", rv), ("page", DVal.vint pg),
          ("pagesize", DVal.vint ps), ("numResults", DVal.vint nr),
          ("numPages", DVal.vint np)]))) := by
  refine ⟨?_, ?_, ?_, ?_⟩
  · unfold get_subtitles_tool
    rcases hbv : (extract_bvid url head).1 with _ | bvid
    · exact ⟨_, rfl, Or.inr ⟨_, rfl⟩⟩
    · rcases hinfo : get_video_basic_info view with ⟨aid, cid, _ | err⟩
      · rcases hrun : get_subtitles_run subResp bodyFetch with ⟨subs, _ | err2⟩
        · by_cases hsub : subs.isEmpty
          · simp only [hrun, hsub, if_true]
            exact ⟨_, rfl, Or.inr ⟨_, rfl⟩⟩
          · simp only [hrun, hsub, if_false, Bool.false_eq_true]
            refine ⟨_, rfl, Or.inl ?_⟩
            intro i hi
            obtain ⟨p, _, hip⟩ := List.mem_map.mp hi
            exact ⟨p.1, p.2, hip.symm⟩
        · simp only [hrun]
          exact ⟨_, rfl, Or.inr ⟨_, rfl⟩⟩
      · simp only [hinfo]
        exact ⟨_, rfl, Or.inr ⟨_, rfl⟩⟩
  · unfold get_danmaku_tool
    rcases hbv : (extract_bvid url head).1 with _ | bvid
    · exact ⟨_, rfl, singleton_text_all _⟩
    · rcases hinfo : get_video_basic_info view with ⟨aid, cid, _ | err⟩
      · rcases hrun : get_danmaku_run dmResp with ⟨dms, _ | err2⟩
        · by_cases hdm : dms.isEmpty
          · simp only [hrun, hdm, if_true]
            exact ⟨_, rfl, singleton_text_all _⟩
          · simp only [hrun, hdm, if_false, Bool.false_eq_true]
            refine ⟨_, rfl, ?_⟩
            intro i hi
            obtain ⟨s, _, his⟩ := List.mem_map.mp hi
            exact ⟨s, his.symm⟩
        · simp only [hrun]
          exact ⟨_, rfl, singleton_text_all _⟩
      · simp only [hinfo]
        exact ⟨_, rfl, singleton_text_all _⟩
  · unfold get_comments_tool
    rcases hbv : (extract_bvid url head).1 with _ | bvid
    · exact ⟨_, rfl, Or.inr ⟨_, rfl⟩⟩
    · rcases hinfo : get_video_basic_info view with ⟨aid, cid, _ | err⟩
      · rcases hrun : get_comments_run cmResp with ⟨cms, _ | err2⟩
        · by_cases hcm : cms.isEmpty
          · simp only [hrun, hcm, if_true]
            exact ⟨_, rfl, Or.inr ⟨_, rfl⟩⟩
          · simp only [hrun, hcm, if_false, Bool.false_eq_true]
            refine ⟨_, rfl, Or.inl ?_⟩
            intro i hi
            obtain ⟨p, _, hip⟩ := List.mem_map.mp hi
            exact ⟨p.user, p.content, p.likes, hip.symm⟩
        · simp only [hrun]
          exact ⟨_, rfl, Or.inr ⟨_, rfl⟩⟩
      · simp only [hinfo]
        exact ⟨_, rfl, Or.inr ⟨_, rfl⟩⟩
  · unfold search_tool
    rcases hout : search_by_type_run fmt (serverToSearchArgs now sa) resp with
      msg | ⟨res, pg, ps, nr, np⟩
    · exact ⟨_, rfl, Or.inl ⟨_, rfl⟩⟩
    · rcases res with ⟨xs⟩ | ⟨rooms, users⟩
      · exact ⟨_, rfl, Or.inr ⟨_, _, _, _, _, rfl⟩⟩
      · exact ⟨_, rfl, Or.inr ⟨_, _, _, _, _, rfl⟩⟩

/-- C6 witness: for `search_type = "bili_user"`, supplied `duration`/`tids`
are dropped while supplied `user_type`/`order_sort` are sent. -/
theorem C6_witness :
    plookup "duration" (search_by_type_params
      ⟨"kw", "bili_user", some "fans", 1, some 2, some 3, some 1, some 0,
        some 4, 0, 0⟩) = none ∧
    plookup "tids" (search_by_type_params
      ⟨"kw", "bili_user", some "fans", 1, some 2, some 3, some 1, some 0,
        some 4, 0, 0⟩) = none ∧
    plookup "user_type" (search_by_type_params
      ⟨"kw", "bili_user", some "fans", 1, some 2, some 3, some 1, some 0,
        some 4, 0, 0⟩) = some (PValue.pint 1) ∧
    plookup "order_sort" (search_by_type_params
      ⟨"kw", "bili_user", some "fans", 1, some 2, some 3, some 1, some 0,
        some 4, 0, 0⟩) = some (PValue.pint 0) ∧
    plookup "category_id" (search_by_type_params
      ⟨"kw", "bili_user", some "fans", 1, some 2, some 3, some 1, some 0,
        some 4, 0, 0⟩) = none := by
  have h := C6_search_field_filtering
    ⟨"kw", "bili_user", some "fans", 1, some 2, some 3, some 1, some 0,
      some 4, 0, 0⟩
  refine ⟨?_, ?_, ?_, ?_, ?_⟩
  · rw [h.1]; decide
  · rw [h.2.1]; decide
  · rw [h.2.2.1]; decide
  · rw [h.2.2.2.1]; decide
  · rw [h.2.2.2.2]; decide

/-- C7 witness: a concrete instantiation of the tool-boundary shape theorem
with all fetches failing. -/
theorem C7_witness :
    (∃ xs, get_subtitles_tool Unit "x".data none none none (fun _ => none) =
        ToolReturn.rlist xs ∧
      ((∀ i ∈ xs, ∃ lan content, i = ToolItem.subRec lan content) ∨
       (∃ s, xs = [ToolItem.text s]))) ∧
    (∃ xs, get_danmaku_tool Unit "x".data none none none = ToolReturn.rlist xs ∧
      (∀ i ∈ xs, ∃ s, i = ToolItem.text s)) ∧
    (∃ xs, get_comments_tool Unit "x".data none none none = ToolReturn.rlist xs ∧
      ((∀ i ∈ xs, ∃ u c l, i = ToolItem.comRec u c l) ∨
       (∃ s, xs = [ToolItem.text s]))) ∧
    (∃ d, search_tool (fun _ (x : Unit) => x) 0
        ⟨"kw", "video", "click", 1, none, none, none, none, none, 0, 0, 0, 0⟩
        none = ToolReturn.rdict d ∧
      ((∃ s, d = [("error", DVal.vstr s)]) ∨
       (∃ rv pg ps nr np, d = [("results", rv), ("page", DVal.vint pg),
          ("pagesize", DVal.vint ps), ("numResults", DVal.vint nr),
          ("numPages", DVal.vint np)]))) :=
  C7_tool_boundary Unit (fun _ x => x) 0 "x".data none none none
    (fun _ => none) none none
    ⟨"kw", "video", "click", 1, none, none, none, none, none, 0, 0, 0, 0⟩ none
